import Mathlib

/-!
Shallow embedding of `src/python/raster_tile.py` (DijoG/rastPATCH).

The grid-planning core of `tile_raster_with_overlap` (lines 77-89) is a pure
computation over Python integers; it is embedded here over `Int`, with Python's
`range(0, stop, step)` modelled by `pyRange` (including the `ValueError` that a
zero step raises, and the empty result that a negative step yields on a
positive stop).  The per-window output filename (line 110) and the tiles
directory (lines 19-20) are embedded as string-producing functions.
-/

/-- Window descriptor as appended to `tile_grid` in the source:
the tuple `(y_off, x_off, width, height)`. -/
structure TWindow where
  y_off : Int
  x_off : Int
  width : Int
  height : Int
deriving DecidableEq, Repr

/-- Elements of Python `range(0, stop, step)` for a positive `step`:
the multiples `0, step, 2*step, ...` strictly below `stop`. -/
def origins (stop step : Int) : List Int :=
  (List.range ((stop.toNat + step.toNat - 1) / step.toNat)).map
    (fun k => (Nat.cast k : Int) * step)

/-- Python `range(0, stop, step)`: a zero step raises `ValueError`;
a positive step enumerates `0, step, 2*step, ...` below `stop`;
a negative step enumerates `0, step, 2*step, ...` above `stop`
(empty whenever `stop >= 0`). -/
def pyRange (stop step : Int) : Except String (List Int) :=
  if step = 0 then Except.error "range() arg 3 must not be zero"
  else if 0 < step then Except.ok (origins stop step)
  else
    Except.ok ((List.range (((-stop).toNat + (-step).toNat - 1) / (-step).toNat)).map
      (fun k => (Nat.cast k : Int) * step))

/-- Offset adjustment of source lines 81-82 for one axis, at nominal origin
`v`: `max(0, v - overlap if v > 0 else 0)`. -/
def axis_off (overlap v : Int) : Int :=
  max 0 (if 0 < v then v - overlap else 0)

/-- Extent computation of source lines 84-87 for one axis:
`min(tile_size + (overlap if v > 0 else 0), limit - off)` where `off` is the
adjusted offset and `limit` is the raster extent on this axis. -/
def axis_ext (limit tile_size overlap v : Int) : Int :=
  min (tile_size + (if 0 < v then overlap else 0)) (limit - axis_off overlap v)

/-- Body of the grid loop (source lines 81-89): for nominal origin `(y, x)`
compute the adjusted offsets and the clamped extents, exactly as the source
writes them: `x_off = max(0, x - overlap if x > 0 else 0)`,
`width = min(tile_size + (overlap if x > 0 else 0), src.width - x_off)`,
and symmetrically for the `y` axis. -/
def mkWindow (raster_width raster_height tile_size overlap y x : Int) : TWindow :=
  ⟨axis_off overlap y, axis_off overlap x,
   axis_ext raster_width tile_size overlap x, axis_ext raster_height tile_size overlap y⟩

/-- The `tile_grid` list built by the nested loops of source lines 77-89:
`for y in range(0, src.height, tile_size - overlap)` outside,
`for x in range(0, src.width, tile_size - overlap)` inside, appending
row-major.  A zero step propagates Python's `ValueError`. -/
def tile_grid (raster_width raster_height tile_size overlap : Int) :
    Except String (List TWindow) := do
  let ys ← pyRange raster_height (tile_size - overlap)
  let xs ← pyRange raster_width (tile_size - overlap)
  return ys.flatMap (fun y => xs.map (fun x => mkWindow raster_width raster_height tile_size overlap y x))

/-- Terminal outcome of one run of `tile_raster_with_overlap`: the success
message reports `len(tile_grid)` (source line 125), and any exception is
caught and turned into a failing exit (source lines 128-130). -/
inductive RunOutcome where
  | success : Nat → RunOutcome
  | failure : String → RunOutcome
deriving DecidableEq, Repr

/-- Process-level behaviour of `tile_raster_with_overlap` on the grid-planning
core: an exception during grid construction is caught and the run fails;
otherwise the run succeeds reporting the total tile count.  (Raster and
filesystem I/O are external collaborators and assumed to succeed.) -/
def tile_raster_with_overlap (raster_width raster_height tile_size overlap : Int) :
    RunOutcome :=
  match tile_grid raster_width raster_height tile_size overlap with
  | Except.error e => RunOutcome.failure e
  | Except.ok g => RunOutcome.success g.length

/-- Decimal digit character, `'0'` through `'9'`. -/
def dchar (d : Nat) : Char := Char.ofNat (48 + d)

/-- Python's `f"{n:04d}"` for a non-negative `n`, as a character list:
zero-padded to width 4, wider numbers printed in full. -/
def pad4 (n : Nat) : List Char :=
  if n < 10000 then
    [dchar (n / 1000), dchar (n / 100 % 10), dchar (n / 10 % 10), dchar (n % 10)]
  else Nat.toDigits 10 n

/-- Character list of the output filename of source line 110:
`f"tile_{y:04d}_{x:04d}.tif"` where `y, x` are the window's offsets. -/
def tile_name_chars (w : TWindow) : List Char :=
  "tile_".data ++ (pad4 w.y_off.toNat ++ ("_".data ++ (pad4 w.x_off.toNat ++ ".tif".data)))

/-- Output filename of one window (source line 110). -/
def tile_name (w : TWindow) : String := String.mk (tile_name_chars w)

/-- The tiles directory of `validate_and_prepare_paths` (source lines 19-20):
`output_dir / "tiles"`. -/
def tiles_dir (output_dir : String) : String := output_dir ++ "/tiles"

/-- Full path of one emitted tile file (source line 110). -/
def tile_path (output_dir : String) (w : TWindow) : String :=
  tiles_dir output_dir ++ "/" ++ tile_name w

/-- Length of the intersection of two windows' pixel ranges along the x axis
(may be negative when the ranges are far apart). -/
def xInter (a b : TWindow) : Int :=
  min (a.x_off + a.width) (b.x_off + b.width) - max a.x_off b.x_off

/-- Length of the intersection of two windows' pixel ranges along the y axis. -/
def yInter (a b : TWindow) : Int :=
  min (a.y_off + a.height) (b.y_off + b.height) - max a.y_off b.y_off

/-- Pixel `(q, p)` (row `q`, column `p`) lies in window `w`. -/
def covers (w : TWindow) (q p : Int) : Prop :=
  w.y_off ≤ q ∧ q < w.y_off + w.height ∧ w.x_off ≤ p ∧ p < w.x_off + w.width

instance (w : TWindow) (q p : Int) : Decidable (covers w q p) := by
  unfold covers; infer_instance

instance {α β : Type} [DecidableEq α] [DecidableEq β] : DecidableEq (Except α β)
  | Except.ok x, Except.ok y =>
    if h : x = y then isTrue (congrArg Except.ok h)
    else isFalse (fun hh => h (Except.ok.inj hh))
  | Except.error e, Except.error f =>
    if h : e = f then isTrue (congrArg Except.error h)
    else isFalse (fun hh => h (Except.error.inj hh))
  | Except.ok _, Except.error _ => isFalse (fun hh => Except.noConfusion hh)
  | Except.error _, Except.ok _ => isFalse (fun hh => Except.noConfusion hh)

/-! Helper lemmas about the enumeration of nominal origins. -/

/-- Membership in `origins` unfolded to the defining multiples. -/
theorem mem_origins {stop step x : Int} :
    x ∈ origins stop step ↔
      ∃ k : Nat, k < (stop.toNat + step.toNat - 1) / step.toNat ∧ x = (k : Int) * step := by
  unfold origins
  rw [List.mem_map]
  constructor
  · rintro ⟨k, hk, rfl⟩; exact ⟨k, List.mem_range.mp hk, rfl⟩
  · rintro ⟨k, hk, rfl⟩; exact ⟨k, List.mem_range.mpr hk, rfl⟩

/-- For a positive stop and step, the nominal origin count is
`(stop - 1) / step + 1`. -/
theorem origins_count {stop step : Int} (hstop : 0 < stop) (hstep : 0 < step) :
    (stop.toNat + step.toNat - 1) / step.toNat = (stop.toNat - 1) / step.toNat + 1 := by
  have h1 : stop.toNat + step.toNat - 1 = (stop.toNat - 1) + step.toNat := by omega
  have h2 : 0 < step.toNat := by omega
  rw [h1, Nat.add_div_right _ h2]

/-- Every enumerated origin is a valid pixel position: `0 ≤ x < stop`;
moreover it is `0` or at least `step`. -/
theorem origins_bounds {stop step x : Int} (hstop : 0 < stop) (hstep : 0 < step)
    (hx : x ∈ origins stop step) : 0 ≤ x ∧ x < stop ∧ (x = 0 ∨ step ≤ x) := by
  rcases mem_origins.mp hx with ⟨k, hk, rfl⟩
  rw [origins_count hstop hstep] at hk
  have hk' : k ≤ (stop.toNat - 1) / step.toNat := by omega
  have h12 : k * step.toNat ≤ stop.toNat - 1 :=
    le_trans (Nat.mul_le_mul_right _ hk') (Nat.div_mul_le_self _ _)
  have h3 : (k : Int) * step = ((k * step.toNat : Nat) : Int) := by
    push_cast; rw [Int.toNat_of_nonneg hstep.le]
  rcases Nat.eq_zero_or_pos k with hk0 | hk0
  · subst hk0; simp; omega
  · have h4 : step.toNat ≤ k * step.toNat := Nat.le_mul_of_pos_left _ hk0
    rw [h3]
    refine ⟨by omega, by omega, Or.inr (by omega)⟩

/-- For any pixel position `0 ≤ p < stop` there is an enumerated origin `x`
with `x ≤ p < x + step`. -/
theorem origins_cover {stop step p : Int} (hstop : 0 < stop) (hstep : 0 < step)
    (hp0 : 0 ≤ p) (hp : p < stop) :
    ∃ x ∈ origins stop step, x ≤ p ∧ p < x + step := by
  have h1 : step.toNat * (p.toNat / step.toNat) + p.toNat % step.toNat = p.toNat :=
    Nat.div_add_mod _ _
  rw [Nat.mul_comm] at h1
  have h2 : p.toNat % step.toNat < step.toNat := Nat.mod_lt _ (by omega)
  have h3 : ((p.toNat / step.toNat : Nat) : Int) * step =
      ((p.toNat / step.toNat * step.toNat : Nat) : Int) := by
    push_cast; rw [Int.toNat_of_nonneg hstep.le]
  refine ⟨((p.toNat / step.toNat) : Nat) * (step : Int), ?_, ?_, ?_⟩
  · refine mem_origins.mpr ⟨p.toNat / step.toNat, ?_, rfl⟩
    rw [origins_count hstop hstep]
    have := Nat.div_le_div_right (c := step.toNat) (show p.toNat ≤ stop.toNat - 1 by omega)
    omega
  · rw [h3]; omega
  · rw [h3]; omega

/-- With a positive step, `pyRange` succeeds with `origins`. -/
theorem pyRange_pos {stop step : Int} (h : 0 < step) :
    pyRange stop step = Except.ok (origins stop step) := by
  unfold pyRange
  rw [if_neg (by omega), if_pos h]

/-- When the stride is positive, the grid computation succeeds and produces
exactly the row-major product of the origin enumerations. -/
theorem tile_grid_pos {W H ts ov : Int} (h : 0 < ts - ov) :
    tile_grid W H ts ov = Except.ok
      ((origins H (ts - ov)).flatMap (fun y =>
        (origins W (ts - ov)).map (fun x => mkWindow W H ts ov y x))) := by
  unfold tile_grid
  rw [pyRange_pos h, pyRange_pos h]
  rfl

/-- Membership in the successful grid list. -/
theorem mem_tile_grid {W H ts ov : Int} (h : 0 < ts - ov) {g : List TWindow}
    (hg : tile_grid W H ts ov = Except.ok g) {w : TWindow} :
    w ∈ g ↔ ∃ y ∈ origins H (ts - ov), ∃ x ∈ origins W (ts - ov),
      w = mkWindow W H ts ov y x := by
  rw [tile_grid_pos h] at hg
  injection hg with hg
  subst hg
  simp only [List.mem_flatMap, List.mem_map]
  constructor
  · rintro ⟨y, hy, x, hx, rfl⟩; exact ⟨y, hy, x, hx, rfl⟩
  · rintro ⟨y, hy, x, hx, rfl⟩; exact ⟨y, hy, x, hx, rfl⟩

/-- With a zero stride (`overlap = tile_size`), grid construction raises
Python's `ValueError`. -/
theorem tile_grid_zero_step (W H ts : Int) :
    tile_grid W H ts ts = Except.error "range() arg 3 must not be zero" := by
  unfold tile_grid pyRange
  rw [sub_self, if_pos rfl]
  rfl

/-- With a negative step and a positive stop, Python's range is empty. -/
theorem pyRange_neg_empty {stop step : Int} (hstop : 0 < stop) (hstep : step < 0) :
    pyRange stop step = Except.ok [] := by
  unfold pyRange
  rw [if_neg (by omega), if_neg (by omega)]
  have h : ((-stop).toNat + (-step).toNat - 1) / (-step).toNat = 0 :=
    Nat.div_eq_of_lt (by omega)
  rw [h]
  rfl

/-- With a negative stride (`overlap > tile_size`), the grid is empty. -/
theorem tile_grid_neg_step {W H ts ov : Int} (hW : 0 < W) (hH : 0 < H)
    (h : ts - ov < 0) : tile_grid W H ts ov = Except.ok [] := by
  unfold tile_grid
  rw [pyRange_neg_empty hH h, pyRange_neg_empty hW h]
  rfl

/-- Per-axis validity of one window: positive extent, offset between `0` and
the nominal origin, and the window contained in `[0, limit)`. -/
theorem axis_valid {limit ts ov v : Int} (hts : 0 < ts) (hov : 0 ≤ ov)
    (hv0 : 0 ≤ v) (hvL : v < limit) :
    0 ≤ axis_off ov v ∧ axis_off ov v ≤ v ∧ 0 < axis_ext limit ts ov v ∧
      axis_off ov v + axis_ext limit ts ov v ≤ limit := by
  unfold axis_ext axis_off
  split_ifs <;> omega

/-- Per-axis coverage: a pixel `p` with `v ≤ p < v + stride` for a nominal
origin `v` lies inside the window planned at `v`. -/
theorem axis_covers {limit ts ov v p : Int} (hts : 0 < ts) (hov : 0 ≤ ov)
    (hvs : v = 0 ∨ ts - ov ≤ v) (h1 : v ≤ p) (h2 : p < v + (ts - ov))
    (hpL : p < limit) :
    axis_off ov v ≤ p ∧ p < axis_off ov v + axis_ext limit ts ov v := by
  unfold axis_ext axis_off
  split_ifs <;> omega

/-- C8: for raster 2500 x 1, tile_size 1000, overlap 100 the planner emits
exactly the three windows `(0,0,1000,1)`, `(0,800,1100,1)`, `(0,1700,800,1)`,
in this order. -/
theorem example_grid_2500_windows : tile_grid 2500 1 1000 100 =
    Except.ok [⟨0, 0, 1000, 1⟩, ⟨0, 800, 1100, 1⟩, ⟨0, 1700, 800, 1⟩] := by decide

/-- C3 (counterexample): on a 4000 x 4000 raster with tile_size 2000 and
overlap 20 the planner emits 9 windows (a 3 x 3 grid), not 4, because the
nominal origins along each axis are 0, 1980, 3960; moreover the first two
windows of the first row intersect by 40 > 20 pixels along x. -/
theorem example_grid_4000_is_not_2x2 :
    (∃ g, tile_grid 4000 4000 2000 20 = Except.ok g ∧ g.length = 9 ∧ g.length ≠ 4) ∧
    xInter (mkWindow 4000 4000 2000 20 0 0) (mkWindow 4000 4000 2000 20 0 1980) = 40 ∧
    ¬ xInter (mkWindow 4000 4000 2000 20 0 0) (mkWindow 4000 4000 2000 20 0 1980) ≤ 20 := by
  refine ⟨⟨_, rfl, by decide, by decide⟩, by decide, by decide⟩

/-- C3 (amended): on a 4000 x 4000 raster with tile_size 2000 and overlap 20
the planner emits exactly 9 windows forming a 3 x 3 grid (origins 0, 1980,
3960 on each axis), and every pair of emitted windows whose offsets differ
along an axis intersects by at most 40 = 2 * overlap pixels along that
axis. -/
theorem example_grid_4000_nine_windows :
    tile_grid 4000 4000 2000 20 = Except.ok
      [⟨0, 0, 2000, 2000⟩, ⟨0, 1960, 2020, 2000⟩, ⟨0, 3940, 60, 2000⟩,
       ⟨1960, 0, 2000, 2020⟩, ⟨1960, 1960, 2020, 2020⟩, ⟨1960, 3940, 60, 2020⟩,
       ⟨3940, 0, 2000, 60⟩, ⟨3940, 1960, 2020, 60⟩, ⟨3940, 3940, 60, 60⟩] ∧
    (∀ g, tile_grid 4000 4000 2000 20 = Except.ok g →
      ∀ w1 ∈ g, ∀ w2 ∈ g,
        (w1.x_off ≠ w2.x_off → xInter w1 w2 ≤ 40) ∧
        (w1.y_off ≠ w2.y_off → yInter w1 w2 ≤ 40)) := by
  refine ⟨by decide, ?_⟩
  intro g hg
  have : g = [⟨0, 0, 2000, 2000⟩, ⟨0, 1960, 2020, 2000⟩, ⟨0, 3940, 60, 2000⟩,
       ⟨1960, 0, 2000, 2020⟩, ⟨1960, 1960, 2020, 2020⟩, ⟨1960, 3940, 60, 2020⟩,
       ⟨3940, 0, 2000, 60⟩, ⟨3940, 1960, 2020, 60⟩, ⟨3940, 3940, 60, 60⟩] := by
    have h2 : tile_grid 4000 4000 2000 20 = Except.ok
      [⟨0, 0, 2000, 2000⟩, ⟨0, 1960, 2020, 2000⟩, ⟨0, 3940, 60, 2000⟩,
       ⟨1960, 0, 2000, 2020⟩, ⟨1960, 1960, 2020, 2020⟩, ⟨1960, 3940, 60, 2020⟩,
       ⟨3940, 0, 2000, 60⟩, ⟨3940, 1960, 2020, 60⟩, ⟨3940, 3940, 60, 60⟩] := by decide
    rw [hg] at h2
    exact Except.ok.inj h2
  subst this
  decide

/-- C10: with `overlap > tile_size` (negative stride) and positive raster
dimensions, the enumeration is empty: zero windows, zero tile paths, and the
run completes successfully reporting a total tile count of 0. -/
theorem negative_stride_empty_success (W H ts ov : Int) (od : String)
    (hW : 0 < W) (hH : 0 < H) (hov : ts < ov) :
    tile_grid W H ts ov = Except.ok [] ∧
    (tile_grid W H ts ov).map (fun g => g.map (tile_path od)) = Except.ok [] ∧
    tile_raster_with_overlap W H ts ov = RunOutcome.success 0 := by
  have h := tile_grid_neg_step hW hH (show ts - ov < 0 by omega)
  refine ⟨h, by rw [h]; rfl, ?_⟩
  unfold tile_raster_with_overlap
  rw [h]
  rfl

/-- C10 witness at `W = 5, H = 5, tile_size = 2, overlap = 3`. -/
theorem negative_stride_empty_success_witness :
    tile_grid 5 5 2 3 = Except.ok [] ∧
    (tile_grid 5 5 2 3).map (fun g => g.map (tile_path "out")) = Except.ok [] ∧
    tile_raster_with_overlap 5 5 2 3 = RunOutcome.success 0 :=
  negative_stride_empty_success 5 5 2 3 "out" (by decide) (by decide) (by decide)

/-- C1 (counterexample): on the valid configuration `W = H = 4000,
tile_size = 2000, overlap = 20`, the windows planned at the consecutive
nominal x origins 0 and 1980 (both enumerated) intersect by 40 pixels along
x, exceeding the claimed bound `overlap = 20`. -/
theorem adjacent_overlap_exceeds_spec_bound :
    (0 : Int) ∈ origins 4000 (2000 - 20) ∧ (1980 : Int) ∈ origins 4000 (2000 - 20) ∧
    xInter (mkWindow 4000 4000 2000 20 0 0) (mkWindow 4000 4000 2000 20 0 1980) = 40 ∧
    ¬ xInter (mkWindow 4000 4000 2000 20 0 0) (mkWindow 4000 4000 2000 20 0 1980) ≤ 20 := by
  refine ⟨by decide, by decide, by decide, by decide⟩

/-- C1 (amended): for a valid configuration satisfying additionally
`2 * overlap ≤ tile_size`, any two windows planned at consecutive nominal
origins along an axis intersect by at most `2 * overlap` pixels along that
axis (the back-extension by `overlap` on each side doubles the spec's claimed
bound). -/
theorem adjacent_overlap_le_two_overlap (W H ts ov y x : Int)
    (hW : 0 < W) (hH : 0 < H) (hts : 0 < ts) (hov : 0 ≤ ov) (h2 : 2 * ov ≤ ts) :
    (x ∈ origins W (ts - ov) → x + (ts - ov) ∈ origins W (ts - ov) →
      xInter (mkWindow W H ts ov y x) (mkWindow W H ts ov y (x + (ts - ov))) ≤ 2 * ov) ∧
    (y ∈ origins H (ts - ov) → y + (ts - ov) ∈ origins H (ts - ov) →
      yInter (mkWindow W H ts ov y x) (mkWindow W H ts ov (y + (ts - ov)) x) ≤ 2 * ov) := by
  have hs : 0 < ts - ov := by omega
  constructor
  · intro hx _
    obtain ⟨hx0, hxW, hxs⟩ := origins_bounds hW hs hx
    simp only [xInter, mkWindow, axis_ext, axis_off]
    split_ifs <;> omega
  · intro hy _
    obtain ⟨hy0, hyH, hys⟩ := origins_bounds hH hs hy
    simp only [yInter, mkWindow, axis_ext, axis_off]
    split_ifs <;> omega

/-- C1 witness: the amended bound instantiated at `W = H = 4000,
tile_size = 2000, overlap = 20`, consecutive x origins 1980 and 3960. -/
theorem adjacent_overlap_le_two_overlap_witness :
    xInter (mkWindow 4000 4000 2000 20 0 1980)
      (mkWindow 4000 4000 2000 20 0 (1980 + (2000 - 20))) ≤ 2 * 20 :=
  (adjacent_overlap_le_two_overlap 4000 4000 2000 20 0 1980
    (by decide) (by decide) (by decide) (by decide) (by decide)).1 (by decide) (by decide)

/-- C2 (counterexample): at `W = 5, H = 5, tile_size = 2, overlap = 3`
(so `overlap > tile_size`) the run does not fail: it succeeds with a total
tile count of 0, so no InvalidConfiguration-style error is raised. -/
theorem overlap_gt_tile_size_succeeds :
    tile_raster_with_overlap 5 5 2 3 = RunOutcome.success 0 ∧
    ∀ e, tile_raster_with_overlap 5 5 2 3 ≠ RunOutcome.failure e := by
  refine ⟨by decide, ?_⟩
  intro e h
  rw [show tile_raster_with_overlap 5 5 2 3 = RunOutcome.success 0 from by decide] at h
  exact RunOutcome.noConfusion h

/-- C2 (amended): `overlap = tile_size` makes the run fail (the zero-step
range raises Python's ValueError, there is no explicit InvalidConfiguration
check); `overlap > tile_size` does not fail but yields an empty grid and a
successful run with 0 tiles; `overlap = 0` is accepted and produces a
non-overlapping partition: windows at consecutive nominal origins along an
axis have disjoint ranges (intersection length 0) on that axis. -/
theorem boundary_config_behaviour (W H ts ov y x : Int)
    (hW : 0 < W) (hH : 0 < H) (hts : 0 < ts) :
    tile_raster_with_overlap W H ts ts =
      RunOutcome.failure "range() arg 3 must not be zero" ∧
    (ts < ov → tile_raster_with_overlap W H ts ov = RunOutcome.success 0) ∧
    (∃ g, tile_grid W H ts 0 = Except.ok g) ∧
    (x ∈ origins W (ts - 0) → x + ts ∈ origins W (ts - 0) →
      xInter (mkWindow W H ts 0 y x) (mkWindow W H ts 0 y (x + ts)) = 0) ∧
    (y ∈ origins H (ts - 0) → y + ts ∈ origins H (ts - 0) →
      yInter (mkWindow W H ts 0 y x) (mkWindow W H ts 0 (y + ts) x) = 0) := by
  have hs0 : (0 : Int) < ts - 0 := by omega
  refine ⟨?_, ?_, ⟨_, tile_grid_pos hs0⟩, ?_, ?_⟩
  · unfold tile_raster_with_overlap
    rw [tile_grid_zero_step]
  · intro h
    unfold tile_raster_with_overlap
    rw [tile_grid_neg_step hW hH (by omega)]
    rfl
  · intro hx hx2
    obtain ⟨hx0, hxW, hxs⟩ := origins_bounds hW hs0 hx
    obtain ⟨hx20, hx2W, -⟩ := origins_bounds hW hs0 hx2
    simp only [xInter, mkWindow, axis_ext, axis_off]
    split_ifs <;> omega
  · intro hy hy2
    obtain ⟨hy0, hyH, hys⟩ := origins_bounds hH hs0 hy
    obtain ⟨hy20, hy2H, -⟩ := origins_bounds hH hs0 hy2
    simp only [yInter, mkWindow, axis_ext, axis_off]
    split_ifs <;> omega

/-- C2 witness at `W = H = 4, tile_size = 2, overlap = 3`, origin pair
`x = 0, x + tile_size = 2`. -/
theorem boundary_config_behaviour_witness :
    tile_raster_with_overlap 4 4 2 2 =
      RunOutcome.failure "range() arg 3 must not be zero" ∧
    tile_raster_with_overlap 4 4 2 3 = RunOutcome.success 0 ∧
    xInter (mkWindow 4 4 2 0 0 0) (mkWindow 4 4 2 0 0 (0 + 2)) = 0 :=
  have h := boundary_config_behaviour 4 4 2 3 0 0 (by decide) (by decide) (by decide)
  ⟨h.1, h.2.1 (by decide), h.2.2.2.1 (by decide) (by decide)⟩

/-- C4 (counterexample): on the valid configuration `W = 2, H = 1,
tile_size = 3, overlap = 2`, the nominal origin `x = 1` is enumerated, but
the emitted x offset is `max(0, 1 - 2) = 0`, not `x - overlap = -1` as the
claim's formula states. -/
theorem offset_formula_clamped_at_zero :
    tile_grid 2 1 3 2 = Except.ok [⟨0, 0, 2, 1⟩, ⟨0, 0, 2, 1⟩] ∧
    (1 : Int) ∈ origins 2 (3 - 2) ∧
    (mkWindow 2 1 3 2 0 1).x_off = 0 ∧
    (mkWindow 2 1 3 2 0 1).x_off ≠ 1 - 2 := by
  refine ⟨by decide, by decide, by decide, by decide⟩

/-- C4 (amended): for every valid configuration and enumerated nominal origin
`(y, x)`, the emitted offsets are `y_off = max(0, y - overlap) if y > 0 else
0` and `x_off = max(0, x - overlap) if x > 0 else 0` (the claim's formula
without the clamp at 0 is wrong when `overlap > x > 0`). -/
theorem offset_formula_with_clamp (W H ts ov y x : Int)
    (hW : 0 < W) (hH : 0 < H) (hts : 0 < ts) (hov : 0 ≤ ov) (hlt : ov < ts)
    (hy : y ∈ origins H (ts - ov)) (hx : x ∈ origins W (ts - ov)) :
    (mkWindow W H ts ov y x).y_off = (if 0 < y then max 0 (y - ov) else 0) ∧
    (mkWindow W H ts ov y x).x_off = (if 0 < x then max 0 (x - ov) else 0) := by
  simp only [mkWindow, axis_off]
  constructor <;> split_ifs <;> omega

/-- C4 witness at `W = 2500, H = 1, tile_size = 1000, overlap = 100`,
nominal origin `(0, 900)`. -/
theorem offset_formula_with_clamp_witness :
    (mkWindow 2500 1 1000 100 0 900).x_off = (if 0 < (900 : Int) then max 0 (900 - 100) else 0) :=
  (offset_formula_with_clamp 2500 1 1000 100 0 900 (by decide) (by decide) (by decide)
    (by decide) (by decide) (by decide) (by decide)).2

/-- C5: for every valid configuration, the number of windows equals
`ceil(H / stride) * ceil(W / stride)` with `stride = tile_size - overlap`
(for positive `n`, `ceil(n / s) = (n + s - 1) / s` in natural division). -/
theorem window_count_eq_ceil_product (W H ts ov : Int)
    (hW : 0 < W) (hH : 0 < H) (hts : 0 < ts) (hov : 0 ≤ ov) (hlt : ov < ts) :
    ∃ g, tile_grid W H ts ov = Except.ok g ∧
      g.length = ((H.toNat + (ts - ov).toNat - 1) / (ts - ov).toNat) *
        ((W.toNat + (ts - ov).toNat - 1) / (ts - ov).toNat) := by
  have hs : 0 < ts - ov := by omega
  refine ⟨_, tile_grid_pos hs, ?_⟩
  rw [List.length_flatMap]
  have h1 : ∀ L s : Int, (origins L s).length = (L.toNat + s.toNat - 1) / s.toNat := by
    intro L s
    unfold origins
    rw [List.length_map, List.length_range]
  simp only [Function.comp_def, List.length_map]
  rw [List.map_const', List.sum_replicate, smul_eq_mul, h1, h1]

/-- C5 witness at `W = 2500, H = 1, tile_size = 1000, overlap = 100`:
3 windows, `ceil(1/900) * ceil(2500/900) = 1 * 3`. -/
theorem window_count_eq_ceil_product_witness :
    ∃ g, tile_grid 2500 1 1000 100 = Except.ok g ∧
      g.length = (((1 : Int).toNat + ((1000 : Int) - 100).toNat - 1) / ((1000 : Int) - 100).toNat) *
        (((2500 : Int).toNat + ((1000 : Int) - 100).toNat - 1) / ((1000 : Int) - 100).toNat) :=
  window_count_eq_ceil_product 2500 1 1000 100 (by decide) (by decide) (by decide)
    (by decide) (by decide)

/-- C7: for every valid configuration, every emitted window has positive
width and height, non-negative offsets, and lies inside the raster:
`y_off + height ≤ H` and `x_off + width ≤ W`. -/
theorem window_validity (W H ts ov : Int)
    (hW : 0 < W) (hH : 0 < H) (hts : 0 < ts) (hov : 0 ≤ ov) (hlt : ov < ts)
    (g : List TWindow) (hg : tile_grid W H ts ov = Except.ok g) :
    ∀ w ∈ g, 0 < w.width ∧ 0 < w.height ∧ 0 ≤ w.y_off ∧ 0 ≤ w.x_off ∧
      w.y_off + w.height ≤ H ∧ w.x_off + w.width ≤ W := by
  intro w hw
  have hs : 0 < ts - ov := by omega
  rcases (mem_tile_grid hs hg).mp hw with ⟨y, hy, x, hx, rfl⟩
  obtain ⟨hy0, hyH, -⟩ := origins_bounds hH hs hy
  obtain ⟨hx0, hxW, -⟩ := origins_bounds hW hs hx
  obtain ⟨hyo1, hyo2, hyo3, hyo4⟩ := @axis_valid H ts ov y hts hov hy0 hyH
  obtain ⟨hxo1, hxo2, hxo3, hxo4⟩ := @axis_valid W ts ov x hts hov hx0 hxW
  exact ⟨hxo3, hyo3, hyo1, hxo1, hyo4, hxo4⟩

/-- C7 witness at `W = 2500, H = 1, tile_size = 1000, overlap = 100`,
checked on the first emitted window. -/
theorem window_validity_witness :
    0 < (⟨0, 0, 1000, 1⟩ : TWindow).width ∧ 0 < (⟨0, 0, 1000, 1⟩ : TWindow).height ∧
    0 ≤ (⟨0, 0, 1000, 1⟩ : TWindow).y_off ∧ 0 ≤ (⟨0, 0, 1000, 1⟩ : TWindow).x_off ∧
    (⟨0, 0, 1000, 1⟩ : TWindow).y_off + (⟨0, 0, 1000, 1⟩ : TWindow).height ≤ 1 ∧
    (⟨0, 0, 1000, 1⟩ : TWindow).x_off + (⟨0, 0, 1000, 1⟩ : TWindow).width ≤ 2500 :=
  window_validity 2500 1 1000 100 (by decide) (by decide) (by decide) (by decide) (by decide)
    [⟨0, 0, 1000, 1⟩, ⟨0, 800, 1100, 1⟩, ⟨0, 1700, 800, 1⟩] (by decide)
    ⟨0, 0, 1000, 1⟩ (by decide)

/-- C6: for every valid configuration the union of the emitted windows'
pixel rectangles equals the full raster extent: every window lies inside
`[0, W) x [0, H)`, and every pixel of `[0, W) x [0, H)` is covered by some
emitted window. -/
theorem coverage_full_extent (W H ts ov : Int)
    (hW : 0 < W) (hH : 0 < H) (hts : 0 < ts) (hov : 0 ≤ ov) (hlt : ov < ts) :
    ∃ g, tile_grid W H ts ov = Except.ok g ∧
      (∀ w ∈ g, ∀ q p : Int, covers w q p → 0 ≤ q ∧ q < H ∧ 0 ≤ p ∧ p < W) ∧
      (∀ q p : Int, 0 ≤ q → q < H → 0 ≤ p → p < W → ∃ w ∈ g, covers w q p) := by
  have hs : 0 < ts - ov := by omega
  refine ⟨_, tile_grid_pos hs, ?_, ?_⟩
  · intro w hw q p hc
    rcases (mem_tile_grid hs (tile_grid_pos hs)).mp hw with ⟨y, hy, x, hx, rfl⟩
    obtain ⟨hy0, hyH, -⟩ := origins_bounds hH hs hy
    obtain ⟨hx0, hxW, -⟩ := origins_bounds hW hs hx
    obtain ⟨hyo1, hyo2, hyo3, hyo4⟩ := @axis_valid H ts ov y hts hov hy0 hyH
    obtain ⟨hxo1, hxo2, hxo3, hxo4⟩ := @axis_valid W ts ov x hts hov hx0 hxW
    simp only [covers, mkWindow] at hc
    exact ⟨by omega, by omega, by omega, by omega⟩
  · intro q p hq0 hqH hp0 hpW
    obtain ⟨y, hy, hy1, hy2⟩ := origins_cover hH hs hq0 hqH
    obtain ⟨x, hx, hx1, hx2⟩ := origins_cover hW hs hp0 hpW
    obtain ⟨-, -, hys⟩ := origins_bounds hH hs hy
    obtain ⟨-, -, hxs⟩ := origins_bounds hW hs hx
    refine ⟨mkWindow W H ts ov y x,
      (mem_tile_grid hs (tile_grid_pos hs)).mpr ⟨y, hy, x, hx, rfl⟩, ?_⟩
    obtain ⟨ha, hb⟩ := @axis_covers H ts ov y q hts hov hys hy1 hy2 hqH
    obtain ⟨hc, hd⟩ := @axis_covers W ts ov x p hts hov hxs hx1 hx2 hpW
    exact ⟨ha, hb, hc, hd⟩

/-! Lemmas about filename ordering: zero-padded decimal rendering is strictly
monotone in lexicographic character order, for values below 10000. -/

/-- Digit characters compare by digit value. -/
theorem dchar_lt_aux : ∀ d e : Fin 10, d.val < e.val → dchar d.val < dchar e.val := by decide

/-- Digit characters compare by digit value, stated over `Nat` digits. -/
theorem dchar_lt {d e : Nat} (hd : d < 10) (he : e < 10) (h : d < e) :
    dchar d < dchar e := dchar_lt_aux ⟨d, hd⟩ ⟨e, he⟩ h

/-- A shared left factor preserves strict lexicographic order. -/
theorem lex_append_same (p : List Char) {l1 l2 : List Char}
    (h : List.Lex (· < ·) l1 l2) : List.Lex (· < ·) (p ++ l1) (p ++ l2) := by
  induction p with
  | nil => exact h
  | cons c cs ih => exact List.Lex.cons ih

/-- For values up to 9999, `pad4` is strictly monotone in lexicographic
order, regardless of what follows the four digits. -/
theorem pad4_lt_append {a b : Nat} (ha : a ≤ 9999) (hb : b ≤ 9999) (hab : a < b)
    (r s : List Char) : List.Lex (· < ·) (pad4 a ++ r) (pad4 b ++ s) := by
  unfold pad4
  rw [if_pos (by omega), if_pos (by omega)]
  simp only [List.cons_append]
  rcases Nat.lt_trichotomy (a / 1000) (b / 1000) with h3 | h3 | h3
  · exact List.Lex.rel (dchar_lt (by omega) (by omega) h3)
  · rw [h3]
    refine List.Lex.cons ?_
    rcases Nat.lt_trichotomy (a / 100 % 10) (b / 100 % 10) with h2 | h2 | h2
    · exact List.Lex.rel (dchar_lt (by omega) (by omega) h2)
    · rw [h2]
      refine List.Lex.cons ?_
      rcases Nat.lt_trichotomy (a / 10 % 10) (b / 10 % 10) with h1 | h1 | h1
      · exact List.Lex.rel (dchar_lt (by omega) (by omega) h1)
      · rw [h1]
        refine List.Lex.cons ?_
        exact List.Lex.rel (dchar_lt (by omega) (by omega) (by omega))
      · omega
    · omega
  · omega

/-- Filenames compare strictly when the offset pairs compare strictly in
row-major (y first, then x) order, provided all offsets fit in four digits. -/
theorem tile_name_lt {w1 w2 : TWindow}
    (h1 : w1.y_off.toNat ≤ 9999) (h2 : w2.y_off.toNat ≤ 9999)
    (h3 : w1.x_off.toNat ≤ 9999) (h4 : w2.x_off.toNat ≤ 9999)
    (h : w1.y_off.toNat < w2.y_off.toNat ∨
      (w1.y_off.toNat = w2.y_off.toNat ∧ w1.x_off.toNat < w2.x_off.toNat)) :
    tile_name w1 < tile_name w2 := by
  rw [String.lt_iff_toList_lt]
  show List.Lex (· < ·) (tile_name_chars w1) (tile_name_chars w2)
  unfold tile_name_chars
  rcases h with hy | ⟨hy, hx⟩
  · exact lex_append_same _ (pad4_lt_append h1 h2 hy _ _)
  · rw [hy]
    exact lex_append_same _ (lex_append_same _ (lex_append_same _
      (pad4_lt_append h3 h4 hx _ _)))

/-- The adjusted offset lies between 0 and the nominal origin. -/
theorem axis_off_nonneg_le {ov v : Int} (hov : 0 ≤ ov) (hv : 0 ≤ v) :
    0 ≤ axis_off ov v ∧ axis_off ov v ≤ v := by
  unfold axis_off
  split_ifs <;> omega

/-- When `2 * overlap < tile_size`, the adjusted offset is strictly monotone
across enumerated nominal origins. -/
theorem axis_off_lt_of_origin_lt {L ts ov v1 v2 : Int} (hL : 0 < L) (hov : 0 ≤ ov)
    (hlt : 2 * ov < ts)
    (hv1 : v1 ∈ origins L (ts - ov)) (hv2 : v2 ∈ origins L (ts - ov)) (h : v1 < v2) :
    axis_off ov v1 < axis_off ov v2 := by
  have hs : 0 < ts - ov := by omega
  obtain ⟨a1, b1, c1⟩ := origins_bounds hL hs hv1
  obtain ⟨a2, b2, c2⟩ := origins_bounds hL hs hv2
  unfold axis_off
  split_ifs <;> omega

/-- Pairwise property of a flattened map, from pairwise rows and pairwise
cross-row relations. -/
theorem pairwise_flatMap {α β : Type} {R : β → β → Prop} {f : α → List β} {l : List α}
    (h1 : ∀ a ∈ l, (f a).Pairwise R)
    (h2 : l.Pairwise (fun a b => ∀ u ∈ f a, ∀ v ∈ f b, R u v)) :
    (l.flatMap f).Pairwise R := by
  induction l with
  | nil => simp
  | cons a l ih =>
    rw [List.flatMap_cons, List.pairwise_append]
    rw [List.pairwise_cons] at h2
    refine ⟨h1 a (List.mem_cons_self a l),
      ih (fun b hb => h1 b (List.mem_cons_of_mem a hb)) h2.2, ?_⟩
    intro u hu v hv
    rcases List.mem_flatMap.mp hv with ⟨b, hb, hvb⟩
    exact h2.1 b hb u hu v hvb

/-- The enumerated origins are strictly increasing. -/
theorem origins_pairwise_lt {stop step : Int} (hstep : 0 < step) :
    (origins stop step).Pairwise (· < ·) := by
  unfold origins
  exact (List.pairwise_lt_range _).map _
    (fun k1 k2 hk => mul_lt_mul_of_pos_right (by exact_mod_cast hk) hstep)

/-- C9 (counterexample): at `W = 1, H = 10801, tile_size = 1000,
overlap = 100` (a valid configuration), the 13 emitted row offsets reach
10700, which needs five digits; `"tile_10700_0000.tif"` sorts
lexicographically before `"tile_9800_0000.tif"` although it is emitted after
it, so the sorted filename order differs from the emission order. -/
theorem filename_order_counterexample :
    ∃ g, tile_grid 1 10801 1000 100 = Except.ok g ∧
      g.map tile_name = ["tile_0000_0000.tif", "tile_0800_0000.tif", "tile_1700_0000.tif",
        "tile_2600_0000.tif", "tile_3500_0000.tif", "tile_4400_0000.tif",
        "tile_5300_0000.tif", "tile_6200_0000.tif", "tile_7100_0000.tif",
        "tile_8000_0000.tif", "tile_8900_0000.tif", "tile_9800_0000.tif",
        "tile_10700_0000.tif"] ∧
      ("tile_10700_0000.tif" : String) < "tile_9800_0000.tif" ∧
      ¬ (g.map tile_name).Pairwise (· ≤ ·) := by
  refine ⟨[⟨0, 0, 1, 1000⟩, ⟨800, 0, 1, 1100⟩, ⟨1700, 0, 1, 1100⟩, ⟨2600, 0, 1, 1100⟩,
    ⟨3500, 0, 1, 1100⟩, ⟨4400, 0, 1, 1100⟩, ⟨5300, 0, 1, 1100⟩, ⟨6200, 0, 1, 1100⟩,
    ⟨7100, 0, 1, 1100⟩, ⟨8000, 0, 1, 1100⟩, ⟨8900, 0, 1, 1100⟩, ⟨9800, 0, 1, 1001⟩,
    ⟨10700, 0, 1, 101⟩], by decide, by decide, ?_, ?_⟩
  · rw [String.lt_iff_toList_lt]; decide
  · intro hp
    rw [show ([⟨0, 0, 1, 1000⟩, ⟨800, 0, 1, 1100⟩, ⟨1700, 0, 1, 1100⟩, ⟨2600, 0, 1, 1100⟩,
      ⟨3500, 0, 1, 1100⟩, ⟨4400, 0, 1, 1100⟩, ⟨5300, 0, 1, 1100⟩, ⟨6200, 0, 1, 1100⟩,
      ⟨7100, 0, 1, 1100⟩, ⟨8000, 0, 1, 1100⟩, ⟨8900, 0, 1, 1100⟩, ⟨9800, 0, 1, 1001⟩,
      (⟨10700, 0, 1, 101⟩ : TWindow)].map tile_name) =
      ["tile_0000_0000.tif", "tile_0800_0000.tif", "tile_1700_0000.tif",
        "tile_2600_0000.tif", "tile_3500_0000.tif", "tile_4400_0000.tif",
        "tile_5300_0000.tif", "tile_6200_0000.tif", "tile_7100_0000.tif",
        "tile_8000_0000.tif", "tile_8900_0000.tif", "tile_9800_0000.tif",
        "tile_10700_0000.tif"] from by decide] at hp
    have hle := List.pairwise_iff_get.mp hp ⟨11, by decide⟩ ⟨12, by decide⟩ (by decide)
    have hlt : ("tile_10700_0000.tif" : String) < "tile_9800_0000.tif" := by
      rw [String.lt_iff_toList_lt]; decide
    exact absurd hle (not_le.mpr hlt)

/-- C9 (amended): every tile file path is `<output_dir>/tiles/` followed by
`tile_<y_off %04d>_<x_off %04d>.tif`, and — provided `2 * overlap <
tile_size` and the raster dimensions are at most 10000 so that offsets fit
in four digits — the emitted filename sequence is strictly increasing
lexicographically, so its lexicographic sort order equals the row-major
emission order.  (Without those provisos the property fails: offsets of five
digits break lexicographic order, and a stride at most `overlap` can repeat
offsets across distinct windows.) -/
theorem filename_sort_matches_emission (W H ts ov : Int) (od : String)
    (hW : 0 < W) (hH : 0 < H) (hts : 0 < ts) (hov : 0 ≤ ov) (hlt : 2 * ov < ts)
    (hWm : W ≤ 10000) (hHm : H ≤ 10000)
    (g : List TWindow) (hg : tile_grid W H ts ov = Except.ok g) :
    (∀ w ∈ g, tile_path od w = od ++ "/tiles/" ++ tile_name w) ∧
    (g.map tile_name).Pairwise (· < ·) := by
  have hs : 0 < ts - ov := by omega
  constructor
  · intro w _
    unfold tile_path tiles_dir
    rw [String.append_assoc, String.append_assoc, ← String.append_assoc "/tiles" "/",
      show ("/tiles" ++ "/" : String) = "/tiles/" from rfl, ← String.append_assoc]
  · rw [tile_grid_pos hs] at hg
    injection hg with hg
    subst hg
    rw [List.pairwise_map]
    apply pairwise_flatMap
    · intro y hy
      rw [List.pairwise_map]
      obtain ⟨hy0, hyH, -⟩ := origins_bounds hH hs hy
      obtain ⟨hyo0, hyo1⟩ := axis_off_nonneg_le hov hy0
      refine (origins_pairwise_lt hs).imp_of_mem ?_
      intro x1 x2 hx1 hx2 hxlt
      obtain ⟨hx10, hx1W, -⟩ := origins_bounds hW hs hx1
      obtain ⟨hx20, hx2W, -⟩ := origins_bounds hW hs hx2
      obtain ⟨hxo10, hxo11⟩ := axis_off_nonneg_le hov hx10
      obtain ⟨hxo20, hxo21⟩ := axis_off_nonneg_le hov hx20
      have hoff := axis_off_lt_of_origin_lt hW hov hlt hx1 hx2 hxlt
      refine tile_name_lt ?_ ?_ ?_ ?_ (Or.inr ⟨?_, ?_⟩) <;>
        simp only [mkWindow] <;> omega
    · refine (origins_pairwise_lt hs).imp_of_mem ?_
      intro y1 y2 hy1 hy2 hylt u hu v hv
      rcases List.mem_map.mp hu with ⟨x1, hx1, rfl⟩
      rcases List.mem_map.mp hv with ⟨x2, hx2, rfl⟩
      obtain ⟨hy10, hy1H, -⟩ := origins_bounds hH hs hy1
      obtain ⟨hy20, hy2H, -⟩ := origins_bounds hH hs hy2
      obtain ⟨hyo10, hyo11⟩ := axis_off_nonneg_le hov hy10
      obtain ⟨hyo20, hyo21⟩ := axis_off_nonneg_le hov hy20
      obtain ⟨hx10, hx1W, -⟩ := origins_bounds hW hs hx1
      obtain ⟨hx20, hx2W, -⟩ := origins_bounds hW hs hx2
      obtain ⟨hxo10, hxo11⟩ := axis_off_nonneg_le hov hx10
      obtain ⟨hxo20, hxo21⟩ := axis_off_nonneg_le hov hx20
      have hoff := axis_off_lt_of_origin_lt hH hov hlt hy1 hy2 hylt
      refine tile_name_lt ?_ ?_ ?_ ?_ (Or.inl ?_) <;>
        simp only [mkWindow] <;> omega

/-- C9 witness at `W = 2500, H = 1, tile_size = 1000, overlap = 100`,
output directory `"out"`. -/
theorem filename_sort_matches_emission_witness :
    (∀ w ∈ ([⟨0, 0, 1000, 1⟩, ⟨0, 800, 1100, 1⟩, ⟨0, 1700, 800, 1⟩] : List TWindow),
      tile_path "out" w = "out" ++ "/tiles/" ++ tile_name w) ∧
    (([⟨0, 0, 1000, 1⟩, ⟨0, 800, 1100, 1⟩, ⟨0, 1700, 800, 1⟩] : List TWindow).map
      tile_name).Pairwise (· < ·) :=
  filename_sort_matches_emission 2500 1 1000 100 "out" (by decide) (by decide) (by decide)
    (by decide) (by decide) (by decide) (by decide)
    [⟨0, 0, 1000, 1⟩, ⟨0, 800, 1100, 1⟩, ⟨0, 1700, 800, 1⟩] (by decide)

/-- C6 witness at `W = 2500, H = 1, tile_size = 1000, overlap = 100`,
checked at pixel `(0, 2499)`. -/
theorem coverage_full_extent_witness :
    ∃ g, tile_grid 2500 1 1000 100 = Except.ok g ∧
      (∀ w ∈ g, ∀ q p : Int, covers w q p → 0 ≤ q ∧ q < 1 ∧ 0 ≤ p ∧ p < 2500) ∧
      (∀ q p : Int, 0 ≤ q → q < 1 → 0 ≤ p → p < 2500 → ∃ w ∈ g, covers w q p) :=
  coverage_full_extent 2500 1 1000 100 (by decide) (by decide) (by decide) (by decide)
    (by decide)
